import Mathlib

/-!
Verification of the learning-rate scheduling notebook
(12-week12/1-deep-learning-learning-schedules.ipynb).

The notebook defines a handful of learning-rate schedules and callbacks:
a PowerScheduling class, an ExponentialLearningRate callback together with
a find_learning_rate range-test routine, instantiations of Keras's
ExponentialDecay and PiecewiseConstantDecay schedules, and a
OneCycleScheduler callback.  All numeric code is embedded here over the
rationals (exact arithmetic); Python integers are embedded as Lean
integers or naturals, and Python floor division as Int.fdiv.
-/

namespace LRSched

/-- State of the PowerScheduling LearningRateSchedule subclass: the three
fields set by its constructor.  The decay_rate exponent is embedded as a
natural number (the notebook instantiates it with the integer value 1.0);
a non-integer exponent would need real exponentiation, which has no exact
finite representation. -/
structure PowerScheduling where
  initial_learning_rate : ℚ
  decay_rate : ℕ
  step_param : ℚ

/-- Embedding of PowerScheduling.__call__: returns
initial_learning_rate / (1 + step / step_param) ** decay_rate. -/
def PowerScheduling.call (p : PowerScheduling) (step : ℚ) : ℚ :=
  p.initial_learning_rate / (1 + step / p.step_param) ^ p.decay_rate

/-- The power-schedule formula from the spec, written from the spec's
words: eta(t) = eta0 / (1 + t/s)^c. -/
def powerFormula (eta0 s : ℚ) (c : ℕ) (t : ℚ) : ℚ :=
  eta0 / (1 + t / s) ^ c

/-- State of the ExponentialLearningRate callback: the factor set by its
constructor, the two accumulator lists, and the per-epoch running sum. -/
structure ELRState where
  factor : ℚ
  rates : List ℚ
  losses : List ℚ
  sum_of_epoch_losses : ℚ

/-- Combined state visible to the callback during model.fit: the model's
weights (abstract type W, mutated by training), the optimizer's
learning rate, and the callback object's own state. -/
structure FitState (W : Type) where
  weights : W
  lr : ℚ
  cb : ELRState

/-- Embedding of ExponentialLearningRate.on_epoch_begin: resets
sum_of_epoch_losses to 0. -/
def on_epoch_begin {W : Type} (s : FitState W) : FitState W :=
  { s with cb := { s.cb with sum_of_epoch_losses := 0 } }

/-- Embedding of ExponentialLearningRate.on_batch_end for batch index
batch with logs loss equal to logsLoss (Keras reports the epoch's mean
loss so far): recovers the batch's own loss from the running sum, records
the current learning rate and that loss, and multiplies the optimizer's
learning rate by factor. -/
def on_batch_end {W : Type} (batch : ℕ) (logsLoss : ℚ) (s : FitState W) :
    FitState W :=
  let mean_epoch_loss := logsLoss
  let new_sum_of_epoch_losses := mean_epoch_loss * ((batch : ℚ) + 1)
  let batch_loss := new_sum_of_epoch_losses - s.cb.sum_of_epoch_losses
  { s with
    lr := s.lr * s.cb.factor
    cb := { s.cb with
      sum_of_epoch_losses := new_sum_of_epoch_losses
      rates := s.cb.rates ++ [s.lr]
      losses := s.cb.losses ++ [batch_loss] } }

/-- One training batch inside model.fit: the framework updates the weights
(trainStep, abstract) and then invokes the callback's on_batch_end with
the batch index and the reported mean loss. -/
def fitBatch {W : Type} (trainStep : ℕ → W → W) (batch : ℕ) (logsLoss : ℚ)
    (s : FitState W) : FitState W :=
  on_batch_end batch logsLoss
    { s with weights := trainStep batch s.weights }

/-- Runs the batches of one epoch from batch index idx onward, where ms
lists the mean losses Keras reports at the end of each successive batch. -/
def runBatches {W : Type} (trainStep : ℕ → W → W) (idx : ℕ) (ms : List ℚ)
    (s : FitState W) : FitState W :=
  match ms with
  | [] => s
  | m :: rest => runBatches trainStep (idx + 1) rest
      (fitBatch trainStep idx m s)

/-- One epoch of model.fit with the ExponentialLearningRate callback:
on_epoch_begin, then the per-batch loop with batch indices 0, 1, .... -/
def runEpoch {W : Type} (trainStep : ℕ → W → W) (ms : List ℚ)
    (s : FitState W) : FitState W :=
  runBatches trainStep 0 ms (on_epoch_begin s)

/-- The whole model.fit call: one runEpoch per entry of epochLosses
(each entry lists that epoch's reported mean losses). -/
def runFit {W : Type} (trainStep : ℕ → W → W) (epochLosses : List (List ℚ))
    (s : FitState W) : FitState W :=
  match epochLosses with
  | [] => s
  | ms :: rest => runFit trainStep rest (runEpoch trainStep ms s)

/-- A model as find_learning_rate sees it: its weights and its
optimizer's learning rate. -/
structure ModelState (W : Type) where
  weights : W
  learning_rate : ℚ

/-- Embedding of math.ceil(a / b) for naturals with b positive. -/
def ceil_div (a b : ℕ) : ℕ := (a + b - 1) / b

/-- State of the model at the start of find_learning_rate's fit call:
the learning rate has been assigned min_rate and a fresh
ExponentialLearningRate callback with the given factor and empty lists
has been created. -/
def initialFitState {W : Type} (model : ModelState W) (min_rate factor : ℚ) :
    FitState W :=
  { weights := model.weights, lr := min_rate,
    cb := { factor := factor, rates := [], losses := [],
            sum_of_epoch_losses := 0 } }

/-- Embedding of find_learning_rate.  The training run itself is opaque:
trainStep gives the framework's weight update for each batch and
epochLosses the mean losses Keras reports.  The multiplying factor
(max_rate / min_rate) ** (1 / iterations) is an iterations-th real root
with no exact rational representation, so it is taken as the argument
factor; the theorems characterise it by factor ^ iterations =
max_rate / min_rate.  Returns the model state after the two restoring
assignments together with the rates and losses lists of the callback. -/
def find_learning_rate {W : Type} (model : ModelState W)
    (trainStep : ℕ → W → W) (epochLosses : List (List ℚ))
    (min_rate factor : ℚ) : ModelState W × List ℚ × List ℚ :=
  let init_weights := model.weights
  let init_lr := model.learning_rate
  let afterFit := runFit trainStep epochLosses
    (initialFitState model min_rate factor)
  let afterLrRestore : ModelState W :=
    { weights := afterFit.weights, learning_rate := init_lr }
  let afterWeightRestore : ModelState W :=
    { afterLrRestore with weights := init_weights }
  (afterWeightRestore, afterFit.cb.rates, afterFit.cb.losses)

/-- A callback invocation on a FitState, for stating invariants over
arbitrary interleavings of the two ExponentialLearningRate methods. -/
inductive CallbackEvent where
  | epochBegin : CallbackEvent
  | batchEnd (batch : ℕ) (logsLoss : ℚ) : CallbackEvent

/-- Applies one callback invocation to the fit state. -/
def applyEvent {W : Type} (s : FitState W) (e : CallbackEvent) : FitState W :=
  match e with
  | CallbackEvent.epochBegin => on_epoch_begin s
  | CallbackEvent.batchEnd b m => on_batch_end b m s

/-- State of the OneCycleScheduler callback: the six fields set by its
constructor plus the iteration counter.  Python integers are embedded
as Lean integers. -/
structure OneCycleScheduler where
  iterations : ℤ
  max_lr : ℚ
  start_lr : ℚ
  last_iterations : ℤ
  half_iteration : ℤ
  last_lr : ℚ
  iteration : ℤ

/-- Embedding of OneCycleScheduler.__init__.  Optional arguments are
Option values; Python's x or default also falls back to the default when
x is the number 0, and that is embedded faithfully.  Python floor
division is Int.fdiv. -/
def OneCycleScheduler.init (iterations : ℤ) (max_lr : ℚ)
    (start_lrArg : Option ℚ) (last_iterationsArg : Option ℤ)
    (last_lrArg : Option ℚ) : OneCycleScheduler :=
  let start_lr :=
    match start_lrArg with
    | none => max_lr / 10
    | some v => if v = 0 then max_lr / 10 else v
  let last_iterations :=
    match last_iterationsArg with
    | none => iterations.fdiv 10 + 1
    | some v => if v = 0 then iterations.fdiv 10 + 1 else v
  let last_lr :=
    match last_lrArg with
    | none => start_lr / 1000
    | some v => if v = 0 then start_lr / 1000 else v
  { iterations := iterations
    max_lr := max_lr
    start_lr := start_lr
    last_iterations := last_iterations
    half_iteration := (iterations - last_iterations).fdiv 2
    last_lr := last_lr
    iteration := 0 }

/-- Embedding of OneCycleScheduler._interpolate:
(lr2 - lr1) * (self.iteration - iter1) / (iter2 - iter1) + lr1. -/
def OneCycleScheduler.interpolate (s : OneCycleScheduler)
    (iter1 iter2 : ℤ) (lr1 lr2 : ℚ) : ℚ :=
  (lr2 - lr1) * ((s.iteration - iter1 : ℤ) : ℚ) / ((iter2 - iter1 : ℤ) : ℚ)
    + lr1

/-- Embedding of OneCycleScheduler.on_batch_begin: selects the branch
from the current iteration counter, increments the counter, and returns
the new state together with the learning rate assigned to the
optimizer. -/
def OneCycleScheduler.on_batch_begin (s : OneCycleScheduler) :
    OneCycleScheduler × ℚ :=
  let lr :=
    if s.iteration < s.half_iteration then
      s.interpolate 0 s.half_iteration s.start_lr s.max_lr
    else if s.iteration < 2 * s.half_iteration then
      s.interpolate s.half_iteration (2 * s.half_iteration)
        s.max_lr s.start_lr
    else
      s.interpolate (2 * s.half_iteration) s.iterations
        s.start_lr s.last_lr
  ({ s with iteration := s.iteration + 1 }, lr)

/-- Modelled from the spec: the Keras ExponentialDecay schedule class is
library code not present in the repository; per its documented formula
(stated in the notebook's markdown) it computes
eta(t) = initial_learning_rate * decay_rate ^ (t / decay_steps). -/
structure ExponentialDecay where
  initial_learning_rate : ℚ
  decay_steps : ℕ
  decay_rate : ℚ

/-- Modelled from the spec: the value of the ExponentialDecay schedule at
step t = k * decay_steps, where the real exponent t / decay_steps is the
whole number k, so the value is exactly representable:
eta(k * decay_steps) = initial_learning_rate * decay_rate ^ k. -/
def ExponentialDecay.atWholeSteps (d : ExponentialDecay) (k : ℕ) : ℚ :=
  d.initial_learning_rate * d.decay_rate ^ k

/-- Modelled from the spec: the Keras PiecewiseConstantDecay schedule
class is library code not present in the repository; per its documented
behaviour it holds boundaries [b_1, ..., b_n] and values
[v_0, ..., v_n]. -/
structure PiecewiseConstantDecay where
  boundaries : List ℕ
  values : List ℚ

/-- Modelled from the spec: lookup of the PiecewiseConstantDecay value at
a step: the first value whose boundary is at or past the step, and the
last value once every boundary is passed. -/
def pcdLookup : List ℕ → List ℚ → ℕ → ℚ
  | b :: bs, v :: vs, t => if t ≤ b then v else pcdLookup bs vs t
  | _, vs, _ => vs.headD 0

/-- Modelled from the spec: the PiecewiseConstantDecay schedule applied
to a step. -/
def PiecewiseConstantDecay.call (d : PiecewiseConstantDecay) (t : ℕ) : ℚ :=
  pcdLookup d.boundaries d.values t

/-- Size of the notebook's training split: the Fashion MNIST training
set has 60000 images and X_train = X_train_full[:-5000] drops the last
5000. -/
def lenXTrain : ℕ := 60000 - 5000

/-- The notebook's exponential-scheduling cell: n_steps =
n_epochs * math.ceil(len(X_train) / batch_size) with n_epochs = 10 and
batch_size = 32. -/
def n_steps : ℕ := 10 * ceil_div lenXTrain 32

/-- The notebook's ExponentialDecay instantiation:
initial_learning_rate = 0.1, decay_steps = n_steps, decay_rate = 0.95. -/
def lr_schedule_exp : ExponentialDecay :=
  { initial_learning_rate := 1 / 10
    decay_steps := n_steps
    decay_rate := 95 / 100 }

/-- The notebook's piecewise-constant cell: epoch_steps =
math.ceil(len(X_train) / batch_size) with batch_size = 32 (assigned in
the exponential-scheduling cell, the latest assignment in scope). -/
def epoch_steps : ℕ := ceil_div lenXTrain 32

/-- Boundary b1 = epoch_steps * 3 from the piecewise-constant cell. -/
def b1 : ℕ := epoch_steps * 3

/-- Boundary b2 = b1 + epoch_steps * 3 from the piecewise-constant
cell. -/
def b2 : ℕ := b1 + epoch_steps * 3

/-- The notebook's PiecewiseConstantDecay instantiation: boundaries
[b1, b2] and values [.1, 0.05, 0.005]. -/
def lr_schedule_pcd : PiecewiseConstantDecay :=
  { boundaries := [b1, b2]
    values := [1 / 10, 5 / 100, 5 / 1000] }

/-- The list of per-batch losses that the ExponentialLearningRate
callback derives from the reported running means ms, when the batch
indices start at idx and the running sum starts at sum0. -/
def lossesFrom (idx : ℕ) (sum0 : ℚ) : List ℚ → List ℚ
  | [] => []
  | m :: rest =>
    (m * ((idx : ℚ) + 1) - sum0) ::
      lossesFrom (idx + 1) (m * ((idx : ℚ) + 1)) rest

/-- The geometric progression lr, lr * f, lr * f ^ 2, ... of length n:
the learning rates that the ExponentialLearningRate callback records. -/
def ratesFrom (lr f : ℚ) : ℕ → List ℚ
  | 0 => []
  | n + 1 => lr :: ratesFrom (lr * f) f n

theorem lossesFrom_length (ms : List ℚ) :
    ∀ (idx : ℕ) (sum0 : ℚ), (lossesFrom idx sum0 ms).length = ms.length := by
  induction ms with
  | nil => intro idx sum0; rfl
  | cons m rest ih => intro idx sum0; simp [lossesFrom, ih]

theorem ratesFrom_length (f : ℚ) (n : ℕ) :
    ∀ lr : ℚ, (ratesFrom lr f n).length = n := by
  induction n with
  | zero => intro lr; rfl
  | succ m ih => intro lr; simp [ratesFrom, ih]

theorem ratesFrom_eq_map (f : ℚ) (n : ℕ) :
    ∀ lr : ℚ, ratesFrom lr f n = (List.range n).map (fun k => lr * f ^ k) := by
  induction n with
  | zero => intro lr; rfl
  | succ m ih =>
    intro lr
    rw [List.range_succ_eq_map]
    simp only [ratesFrom, ih, List.map_cons, List.map_map, pow_zero, mul_one]
    refine congrArg (lr :: ·) (List.map_congr_left fun k _ => ?_)
    simp [Function.comp, pow_succ]
    ring

theorem ratesFrom_add (f : ℚ) (a : ℕ) :
    ∀ (lr : ℚ) (b : ℕ),
      ratesFrom lr f (a + b) = ratesFrom lr f a ++ ratesFrom (lr * f ^ a) f b := by
  induction a with
  | zero => intro lr b; simp [ratesFrom]
  | succ n ih =>
    intro lr b
    have h1 : n + 1 + b = (n + b) + 1 := by omega
    rw [h1]
    simp only [ratesFrom, ih (lr * f) b, List.cons_append]
    have h2 : lr * f * f ^ n = lr * f ^ (n + 1) := by ring
    rw [h2]

theorem runBatches_cb_losses {W : Type} (ts : ℕ → W → W) (ms : List ℚ) :
    ∀ (idx : ℕ) (s : FitState W),
      (runBatches ts idx ms s).cb.losses =
        s.cb.losses ++ lossesFrom idx s.cb.sum_of_epoch_losses ms := by
  induction ms with
  | nil => intro idx s; simp [runBatches, lossesFrom]
  | cons m rest ih =>
    intro idx s
    simp only [runBatches, lossesFrom]
    rw [ih]
    simp [fitBatch, on_batch_end]

theorem runBatches_cb_rates {W : Type} (ts : ℕ → W → W) (ms : List ℚ) :
    ∀ (idx : ℕ) (s : FitState W),
      (runBatches ts idx ms s).cb.rates =
        s.cb.rates ++ ratesFrom s.lr s.cb.factor ms.length := by
  induction ms with
  | nil => intro idx s; simp [runBatches, ratesFrom]
  | cons m rest ih =>
    intro idx s
    simp only [runBatches, List.length_cons, ratesFrom]
    rw [ih]
    simp [fitBatch, on_batch_end]

theorem runBatches_lr {W : Type} (ts : ℕ → W → W) (ms : List ℚ) :
    ∀ (idx : ℕ) (s : FitState W),
      (runBatches ts idx ms s).lr = s.lr * s.cb.factor ^ ms.length := by
  induction ms with
  | nil => intro idx s; simp [runBatches]
  | cons m rest ih =>
    intro idx s
    simp only [runBatches, List.length_cons]
    rw [ih]
    simp only [fitBatch, on_batch_end]
    ring

theorem runBatches_cb_factor {W : Type} (ts : ℕ → W → W) (ms : List ℚ) :
    ∀ (idx : ℕ) (s : FitState W),
      (runBatches ts idx ms s).cb.factor = s.cb.factor := by
  induction ms with
  | nil => intro idx s; rfl
  | cons m rest ih =>
    intro idx s
    simp only [runBatches]
    rw [ih]
    rfl

theorem on_epoch_begin_parts {W : Type} (s : FitState W) :
    (on_epoch_begin s).cb.rates = s.cb.rates ∧
    (on_epoch_begin s).cb.losses = s.cb.losses ∧
    (on_epoch_begin s).cb.factor = s.cb.factor ∧
    (on_epoch_begin s).lr = s.lr ∧
    (on_epoch_begin s).cb.sum_of_epoch_losses = 0 :=
  ⟨rfl, rfl, rfl, rfl, rfl⟩

theorem runEpoch_cb_losses {W : Type} (ts : ℕ → W → W) (ms : List ℚ)
    (s : FitState W) :
    (runEpoch ts ms s).cb.losses = s.cb.losses ++ lossesFrom 0 0 ms := by
  unfold runEpoch
  rw [runBatches_cb_losses]
  rfl

theorem runEpoch_parts {W : Type} (ts : ℕ → W → W) (ms : List ℚ)
    (s : FitState W) :
    (runEpoch ts ms s).cb.factor = s.cb.factor ∧
    (runEpoch ts ms s).lr = s.lr * s.cb.factor ^ ms.length ∧
    (runEpoch ts ms s).cb.rates =
      s.cb.rates ++ ratesFrom s.lr s.cb.factor ms.length ∧
    (runEpoch ts ms s).cb.losses.length =
      s.cb.losses.length + ms.length := by
  unfold runEpoch
  refine ⟨?_, ?_, ?_, ?_⟩
  · rw [runBatches_cb_factor]; rfl
  · rw [runBatches_lr]; rfl
  · rw [runBatches_cb_rates]; rfl
  · rw [runBatches_cb_losses]
    simp [lossesFrom_length, on_epoch_begin]

theorem runFit_parts {W : Type} (ts : ℕ → W → W) (els : List (List ℚ)) :
    ∀ s : FitState W,
      (runFit ts els s).cb.factor = s.cb.factor ∧
      (runFit ts els s).lr =
        s.lr * s.cb.factor ^ (els.map List.length).sum ∧
      (runFit ts els s).cb.rates =
        s.cb.rates ++ ratesFrom s.lr s.cb.factor (els.map List.length).sum ∧
      (runFit ts els s).cb.losses.length =
        s.cb.losses.length + (els.map List.length).sum := by
  induction els with
  | nil => intro s; simp [runFit, ratesFrom]
  | cons ms rest ih =>
    intro s
    simp only [runFit, List.map_cons, List.sum_cons]
    obtain ⟨hf, hlr, hr, hl⟩ := ih (runEpoch ts ms s)
    obtain ⟨ef, elr, er, el⟩ := runEpoch_parts ts ms s
    refine ⟨by rw [hf, ef], ?_, ?_, ?_⟩
    · rw [hlr, elr, ef, pow_add]
      ring
    · rw [hr, er, elr, ef, ratesFrom_add]
      simp [List.append_assoc]
    · rw [hl, el]
      omega

theorem lossesFrom_getD (ms : List ℚ) :
    ∀ (idx : ℕ) (sum0 : ℚ) (b : ℕ), b < ms.length →
      (lossesFrom idx sum0 ms).getD b 0 =
        ms.getD b 0 * ((idx : ℚ) + (b : ℚ) + 1) -
          (if b = 0 then sum0
           else ms.getD (b - 1) 0 * ((idx : ℚ) + (b : ℚ))) := by
  induction ms with
  | nil => intro idx sum0 b hb; simp at hb
  | cons m rest ih =>
    intro idx sum0 b hb
    cases b with
    | zero => simp [lossesFrom]
    | succ c =>
      simp only [lossesFrom, List.getD_cons_succ]
      rw [ih (idx + 1) (m * ((idx : ℚ) + 1)) c (by simpa using hb)]
      cases c with
      | zero =>
        simp only [if_pos rfl, Nat.succ_ne_zero, if_neg, not_false_eq_true,
          Nat.succ_sub_one, List.getD_cons_zero, List.getD_cons_succ]
        push_cast
        ring_nf
      | succ d =>
        have hd : d + 1 - 1 = d := rfl
        have hd2 : d + 1 + 1 - 1 = d + 1 := rfl
        simp only [Nat.succ_ne_zero, if_neg, hd, hd2, List.getD_cons_succ]
        push_cast
        ring_nf

/-- C1: For every non-negative step t, PowerScheduling.__call__ applied
to t returns initial_learning_rate / (1 + t / step_param) ^ decay_rate,
which is the power-schedule formula eta(t) = eta0 / (1 + t/s)^c with
eta0 = initial_learning_rate, s = step_param and c = decay_rate. -/
theorem power_call_eq_formula (p : PowerScheduling) (t : ℚ) (ht : 0 ≤ t) :
    p.call t =
      powerFormula p.initial_learning_rate p.step_param p.decay_rate t :=
  rfl

theorem power_call_eq_formula_witness :
    (0 : ℚ) ≤ 5 ∧
      PowerScheduling.call ⟨1 / 10, 1, 1000⟩ 5 =
        powerFormula (1 / 10) 1000 1 5 :=
  ⟨by norm_num, power_call_eq_formula ⟨1 / 10, 1, 1000⟩ 5 (by norm_num)⟩

/-- C2: in an epoch started by on_epoch_begin (which resets the running
sum to 0), when on_batch_end is invoked for batches 0, 1, ... with the
logs loss of batch b equal to the mean m_b over batches 0..b, the loss
appended for batch b is m_b * (b + 1) - m_(b-1) * b (with the second
term 0 at b = 0). -/
theorem elr_batch_loss {W : Type} (ts : ℕ → W → W) (ms : List ℚ)
    (s : FitState W) (b : ℕ) (hb : b < ms.length) :
    (runEpoch ts ms s).cb.losses.getD (s.cb.losses.length + b) 0 =
      ms.getD b 0 * ((b : ℚ) + 1) - ms.getD (b - 1) 0 * (b : ℚ) := by
  rw [runEpoch_cb_losses,
    List.getD_append_right _ _ _ _ (Nat.le_add_right _ _),
    Nat.add_sub_cancel_left, lossesFrom_getD ms 0 0 b hb]
  rcases Nat.eq_zero_or_pos b with hb0 | hb0
  · subst hb0; simp
  · rw [if_neg (Nat.pos_iff_ne_zero.mp hb0)]
    push_cast
    ring

theorem elr_batch_loss_witness :
    1 < [(2 : ℚ), 3].length ∧
      (runEpoch (W := Unit) (fun _ w => w) [2, 3]
            (initialFitState ⟨(), 1⟩ 1 2)).cb.losses.getD
          ((initialFitState (W := Unit) ⟨(), 1⟩ 1 2).cb.losses.length + 1) 0 =
        [(2 : ℚ), 3].getD 1 0 * ((1 : ℚ) + 1) -
          [(2 : ℚ), 3].getD (1 - 1) 0 * (1 : ℚ) :=
  ⟨by norm_num, elr_batch_loss _ _ _ 1 (by norm_num)⟩

/-- C5: the ExponentialDecay instantiation uses eta0 = 0.1,
gamma = 0.95 and decay_steps = n_steps = 10 * ceil(55000 / 32) = 17190,
so at t = n_steps (one whole multiple of decay_steps, the end of the
10-epoch run) the schedule value is exactly 0.1 * 0.95 = 0.095. -/
theorem exp_decay_instantiation :
    n_steps = 17190 ∧
    lr_schedule_exp.initial_learning_rate = 1 / 10 ∧
    lr_schedule_exp.decay_rate = 95 / 100 ∧
    lr_schedule_exp.decay_steps = n_steps ∧
    lr_schedule_exp.atWholeSteps 1 = 95 / 1000 := by
  refine ⟨by decide, rfl, ?_, rfl, ?_⟩
  · norm_num [lr_schedule_exp]
  · norm_num [ExponentialDecay.atWholeSteps, lr_schedule_exp]

/-- C6: the PiecewiseConstantDecay instantiation yields 0.1 for steps
t <= b1, 0.05 for b1 < t <= b2 and 0.005 for t > b2, where
b1 = 3 * ceil(len(X_train) / batch_size) and b2 = 2 * b1. -/
theorem pcd_instantiation (t : ℕ) :
    lr_schedule_pcd.call t =
      (if t ≤ b1 then 1 / 10 else if t ≤ b2 then 5 / 100 else 5 / 1000) ∧
    b1 = 3 * ceil_div lenXTrain 32 ∧ b2 = 2 * b1 := by
  refine ⟨?_, by decide, by decide⟩
  simp only [PiecewiseConstantDecay.call, lr_schedule_pcd, pcdLookup]
  split_ifs with h1 h2 <;> rfl

/-- C7: the schedule computations are deterministic: equal parameters
and equal step give equal results for PowerScheduling.__call__, and
equal scheduler states give equal results (new state and assigned rate)
for OneCycleScheduler.on_batch_begin. -/
theorem schedules_deterministic (p1 p2 : PowerScheduling) (t1 t2 : ℚ)
    (s1 s2 : OneCycleScheduler) (hp : p1 = p2) (ht : t1 = t2)
    (hs : s1 = s2) :
    p1.call t1 = p2.call t2 ∧ s1.on_batch_begin = s2.on_batch_begin := by
  subst hp; subst ht; subst hs
  exact ⟨rfl, rfl⟩

theorem schedules_deterministic_witness :
    PowerScheduling.call ⟨1 / 10, 1, 1000⟩ 3 =
        PowerScheduling.call ⟨1 / 10, 1, 1000⟩ 3 ∧
      OneCycleScheduler.on_batch_begin
          (OneCycleScheduler.init 10 (1 / 10) none none none) =
        OneCycleScheduler.on_batch_begin
          (OneCycleScheduler.init 10 (1 / 10) none none none) :=
  schedules_deterministic _ _ _ _ _ _ rfl rfl rfl

/-- C8: find_learning_rate restores the model it probes: the returned
model state carries the weights captured at entry and the learning rate
captured at entry, for every training behaviour and every reported loss
sequence. -/
theorem flr_restores_model {W : Type} (model : ModelState W)
    (ts : ℕ → W → W) (els : List (List ℚ)) (min_rate factor : ℚ) :
    (find_learning_rate model ts els min_rate factor).1.weights =
        model.weights ∧
      (find_learning_rate model ts els min_rate factor).1.learning_rate =
        model.learning_rate :=
  ⟨rfl, rfl⟩

/-- C3: the range test grows the learning rate geometrically.  When the
fit processes epochs epochs of ceil(len(X) / batch_size) batches each,
so iterations = ceil(len(X) / batch_size) * epochs batches in all, and
factor is the real iterations-th root of max_rate / min_rate
(characterised exactly by factor ^ iterations = max_rate / min_rate),
the rates list returned by find_learning_rate is
min_rate * factor ^ k for k = 0, ..., iterations - 1, and the
optimizer's learning rate after the final batch of the fit (before the
restoring assignment) is exactly max_rate. -/
theorem flr_geometric {W : Type} (model : ModelState W) (ts : ℕ → W → W)
    (els : List (List ℚ)) (lenX batch_size epochs : ℕ)
    (min_rate max_rate factor : ℚ)
    (hlen : els.length = epochs)
    (heach : ∀ ms ∈ els, ms.length = ceil_div lenX batch_size)
    (hfac : factor ^ (ceil_div lenX batch_size * epochs) =
      max_rate / min_rate)
    (hmin : min_rate ≠ 0) :
    (find_learning_rate model ts els min_rate factor).2.1 =
      (List.range (ceil_div lenX batch_size * epochs)).map
        (fun k => min_rate * factor ^ k) ∧
    (runFit ts els (initialFitState model min_rate factor)).lr =
      max_rate := by
  have htot : (els.map List.length).sum =
      ceil_div lenX batch_size * epochs := by
    have hconst : ∀ x ∈ els.map List.length, x = ceil_div lenX batch_size := by
      intro x hx
      obtain ⟨ms, hms, rfl⟩ := List.mem_map.mp hx
      exact heach ms hms
    rw [List.sum_eq_card_nsmul _ _ hconst]
    simp [hlen, Nat.mul_comm]
  obtain ⟨hf, hlr, hr, hl⟩ :=
    runFit_parts ts els (initialFitState model min_rate factor)
  constructor
  · show (runFit ts els (initialFitState model min_rate factor)).cb.rates = _
    rw [hr, htot, ratesFrom_eq_map]
    rfl
  · rw [hlr, htot]
    show min_rate * factor ^ (ceil_div lenX batch_size * epochs) = max_rate
    rw [hfac]
    field_simp

theorem flr_geometric_witness :
    ([[(3 : ℚ), 5]] : List (List ℚ)).length = 1 ∧
    (∀ ms ∈ ([[(3 : ℚ), 5]] : List (List ℚ)),
      ms.length = ceil_div 4 2) ∧
    (2 : ℚ) ^ (ceil_div 4 2 * 1) = 4 / 1 ∧ (1 : ℚ) ≠ 0 ∧
    ((find_learning_rate (W := Unit) ⟨(), 7⟩ (fun _ w => w)
        [[3, 5]] 1 2).2.1 =
      (List.range (ceil_div 4 2 * 1)).map (fun k => 1 * 2 ^ k) ∧
    (runFit (W := Unit) (fun _ w => w) [[3, 5]]
        (initialFitState ⟨(), 7⟩ 1 2)).lr = 4) :=
  ⟨rfl, by norm_num [ceil_div], by norm_num [ceil_div], by norm_num,
    flr_geometric (W := Unit) ⟨(), 7⟩ (fun _ w => w) [[3, 5]] 4 2 1 1 4 2
      rfl (by norm_num [ceil_div]) (by norm_num [ceil_div]) (by norm_num)⟩

/-- C4: OneCycleScheduler.on_batch_begin is piecewise linear in the
iteration counter i and increments it once per batch: for a scheduler
with half_iteration > 0 and 2 * half_iteration < iterations, the
assigned rate equals the linear interpolation from start_lr at i = 0 to
max_lr at i = half_iteration, from max_lr back to start_lr at
i = 2 * half_iteration, and from start_lr to last_lr at
i = iterations, on the respective ranges of i. -/
theorem onecycle_piecewise_linear (s : OneCycleScheduler)
    (hh : 0 < s.half_iteration)
    (hit : 2 * s.half_iteration < s.iterations)
    (hi : 0 ≤ s.iteration) :
    s.on_batch_begin.1.iteration = s.iteration + 1 ∧
    (s.iteration ≤ s.half_iteration →
      s.on_batch_begin.2 =
        s.start_lr + (s.max_lr - s.start_lr) * (s.iteration : ℚ) /
          (s.half_iteration : ℚ)) ∧
    (s.half_iteration ≤ s.iteration →
      s.iteration ≤ 2 * s.half_iteration →
      s.on_batch_begin.2 =
        s.max_lr + (s.start_lr - s.max_lr) *
          ((s.iteration : ℚ) - (s.half_iteration : ℚ)) /
          (s.half_iteration : ℚ)) ∧
    (2 * s.half_iteration ≤ s.iteration → s.iteration ≤ s.iterations →
      s.on_batch_begin.2 =
        s.start_lr + (s.last_lr - s.start_lr) *
          ((s.iteration : ℚ) - 2 * (s.half_iteration : ℚ)) /
          ((s.iterations : ℚ) - 2 * (s.half_iteration : ℚ))) := by
  have hq : ((s.half_iteration : ℤ) : ℚ) ≠ 0 := by
    exact_mod_cast ne_of_gt hh
  have hq2 : ((s.iterations : ℚ) - 2 * (s.half_iteration : ℚ)) ≠ 0 := by
    have : (2 * s.half_iteration : ℚ) < (s.iterations : ℚ) := by
      exact_mod_cast hit
    push_cast at this ⊢
    linarith
  have hd : 2 * ((s.half_iteration : ℚ)) - ((s.half_iteration : ℚ)) =
      ((s.half_iteration : ℚ)) := by ring
  refine ⟨rfl, ?_, ?_, ?_⟩
  · intro hle
    simp only [OneCycleScheduler.on_batch_begin,
      OneCycleScheduler.interpolate]
    split_ifs with h1 h2
    · push_cast
      ring
    · have heq : s.iteration = s.half_iteration :=
        le_antisymm hle (not_lt.mp h1)
      rw [heq]
      push_cast
      simp only [mul_div_assoc]
      rw [div_self hq, mul_one]
      ring
    · omega
  · intro hge hle
    simp only [OneCycleScheduler.on_batch_begin,
      OneCycleScheduler.interpolate]
    split_ifs with h1 h2
    · omega
    · push_cast
      rw [hd]
      ring
    · have heq : s.iteration = 2 * s.half_iteration :=
        le_antisymm hle (not_lt.mp h2)
      rw [heq]
      push_cast
      rw [hd]
      simp only [mul_div_assoc]
      rw [div_self hq, mul_one]
      ring
  · intro hge hle
    simp only [OneCycleScheduler.on_batch_begin,
      OneCycleScheduler.interpolate]
    split_ifs with h1 h2
    · omega
    · omega
    · push_cast
      ring

theorem onecycle_piecewise_linear_witness :
    0 < (⟨10, 1/10, 1/100, 2, 4, 1/1000, 0⟩ :
        OneCycleScheduler).half_iteration ∧
    2 * (⟨10, 1/10, 1/100, 2, 4, 1/1000, 0⟩ :
        OneCycleScheduler).half_iteration <
      (⟨10, 1/10, 1/100, 2, 4, 1/1000, 0⟩ :
        OneCycleScheduler).iterations ∧
    0 ≤ (⟨10, 1/10, 1/100, 2, 4, 1/1000, 0⟩ :
        OneCycleScheduler).iteration ∧
    ((⟨10, 1/10, 1/100, 2, 4, 1/1000, 0⟩ :
        OneCycleScheduler).on_batch_begin.1.iteration =
      (⟨10, 1/10, 1/100, 2, 4, 1/1000, 0⟩ :
        OneCycleScheduler).iteration + 1 ∧
    ((⟨10, 1/10, 1/100, 2, 4, 1/1000, 0⟩ :
        OneCycleScheduler).iteration ≤
        (⟨10, 1/10, 1/100, 2, 4, 1/1000, 0⟩ :
          OneCycleScheduler).half_iteration →
      (⟨10, 1/10, 1/100, 2, 4, 1/1000, 0⟩ :
        OneCycleScheduler).on_batch_begin.2 =
        (⟨10, 1/10, 1/100, 2, 4, 1/1000, 0⟩ :
          OneCycleScheduler).start_lr +
          ((⟨10, 1/10, 1/100, 2, 4, 1/1000, 0⟩ :
            OneCycleScheduler).max_lr -
            (⟨10, 1/10, 1/100, 2, 4, 1/1000, 0⟩ :
              OneCycleScheduler).start_lr) *
            ((⟨10, 1/10, 1/100, 2, 4, 1/1000, 0⟩ :
              OneCycleScheduler).iteration : ℚ) /
            ((⟨10, 1/10, 1/100, 2, 4, 1/1000, 0⟩ :
              OneCycleScheduler).half_iteration : ℚ)) ∧
    ((⟨10, 1/10, 1/100, 2, 4, 1/1000, 0⟩ :
        OneCycleScheduler).half_iteration ≤
        (⟨10, 1/10, 1/100, 2, 4, 1/1000, 0⟩ :
          OneCycleScheduler).iteration →
      (⟨10, 1/10, 1/100, 2, 4, 1/1000, 0⟩ :
        OneCycleScheduler).iteration ≤
        2 * (⟨10, 1/10, 1/100, 2, 4, 1/1000, 0⟩ :
          OneCycleScheduler).half_iteration →
      (⟨10, 1/10, 1/100, 2, 4, 1/1000, 0⟩ :
        OneCycleScheduler).on_batch_begin.2 =
        (⟨10, 1/10, 1/100, 2, 4, 1/1000, 0⟩ :
          OneCycleScheduler).max_lr +
          ((⟨10, 1/10, 1/100, 2, 4, 1/1000, 0⟩ :
            OneCycleScheduler).start_lr -
            (⟨10, 1/10, 1/100, 2, 4, 1/1000, 0⟩ :
              OneCycleScheduler).max_lr) *
            (((⟨10, 1/10, 1/100, 2, 4, 1/1000, 0⟩ :
              OneCycleScheduler).iteration : ℚ) -
              ((⟨10, 1/10, 1/100, 2, 4, 1/1000, 0⟩ :
                OneCycleScheduler).half_iteration : ℚ)) /
            ((⟨10, 1/10, 1/100, 2, 4, 1/1000, 0⟩ :
              OneCycleScheduler).half_iteration : ℚ)) ∧
    (2 * (⟨10, 1/10, 1/100, 2, 4, 1/1000, 0⟩ :
        OneCycleScheduler).half_iteration ≤
        (⟨10, 1/10, 1/100, 2, 4, 1/1000, 0⟩ :
          OneCycleScheduler).iteration →
      (⟨10, 1/10, 1/100, 2, 4, 1/1000, 0⟩ :
        OneCycleScheduler).iteration ≤
        (⟨10, 1/10, 1/100, 2, 4, 1/1000, 0⟩ :
          OneCycleScheduler).iterations →
      (⟨10, 1/10, 1/100, 2, 4, 1/1000, 0⟩ :
        OneCycleScheduler).on_batch_begin.2 =
        (⟨10, 1/10, 1/100, 2, 4, 1/1000, 0⟩ :
          OneCycleScheduler).start_lr +
          ((⟨10, 1/10, 1/100, 2, 4, 1/1000, 0⟩ :
            OneCycleScheduler).last_lr -
            (⟨10, 1/10, 1/100, 2, 4, 1/1000, 0⟩ :
              OneCycleScheduler).start_lr) *
            (((⟨10, 1/10, 1/100, 2, 4, 1/1000, 0⟩ :
              OneCycleScheduler).iteration : ℚ) -
              2 * ((⟨10, 1/10, 1/100, 2, 4, 1/1000, 0⟩ :
                OneCycleScheduler).half_iteration : ℚ)) /
            (((⟨10, 1/10, 1/100, 2, 4, 1/1000, 0⟩ :
              OneCycleScheduler).iterations : ℚ) -
              2 * ((⟨10, 1/10, 1/100, 2, 4, 1/1000, 0⟩ :
                OneCycleScheduler).half_iteration : ℚ)))) :=
  ⟨by norm_num, by norm_num, by norm_num,
    onecycle_piecewise_linear ⟨10, 1/10, 1/100, 2, 4, 1/1000, 0⟩
      (by norm_num) (by norm_num) (by norm_num)⟩

theorem applyEvent_preserves_len {W : Type} (s : FitState W)
    (e : CallbackEvent) (h : s.cb.rates.length = s.cb.losses.length) :
    (applyEvent s e).cb.rates.length = (applyEvent s e).cb.losses.length := by
  cases e with
  | epochBegin => simpa [applyEvent, on_epoch_begin] using h
  | batchEnd b m => simp [applyEvent, on_batch_end, h]

/-- C9: the rates and losses lists stay the same length across every
callback invocation (on_epoch_begin leaves both untouched and
on_batch_end appends exactly one element to each), so the two lists
find_learning_rate returns have equal length, one entry per batch
processed. -/
theorem elr_lists_same_length {W : Type} (s : FitState W)
    (events : List CallbackEvent) (model : ModelState W)
    (ts : ℕ → W → W) (els : List (List ℚ)) (min_rate factor : ℚ)
    (h : s.cb.rates.length = s.cb.losses.length) :
    (events.foldl applyEvent s).cb.rates.length =
      (events.foldl applyEvent s).cb.losses.length ∧
    (find_learning_rate model ts els min_rate factor).2.1.length =
      (find_learning_rate model ts els min_rate factor).2.2.length ∧
    (find_learning_rate model ts els min_rate factor).2.2.length =
      (els.map List.length).sum := by
  obtain ⟨hf, hlr, hr, hl⟩ :=
    runFit_parts ts els (initialFitState model min_rate factor)
  refine ⟨?_, ?_, ?_⟩
  · induction events generalizing s with
    | nil => exact h
    | cons e rest ih => exact ih _ (applyEvent_preserves_len s e h)
  · show (runFit ts els (initialFitState model min_rate factor)).cb.rates.length =
      (runFit ts els (initialFitState model min_rate factor)).cb.losses.length
    rw [hr, hl]
    simp [ratesFrom_length, initialFitState]
  · show (runFit ts els
        (initialFitState model min_rate factor)).cb.losses.length = _
    rw [hl]
    simp [initialFitState]

theorem elr_lists_same_length_witness :
    (initialFitState (W := Unit) ⟨(), 1⟩ 1 2).cb.rates.length =
      (initialFitState (W := Unit) ⟨(), 1⟩ 1 2).cb.losses.length ∧
    (([CallbackEvent.epochBegin,
        CallbackEvent.batchEnd 0 5].foldl applyEvent
          (initialFitState (W := Unit) ⟨(), 1⟩ 1 2)).cb.rates.length =
      ([CallbackEvent.epochBegin,
        CallbackEvent.batchEnd 0 5].foldl applyEvent
          (initialFitState (W := Unit) ⟨(), 1⟩ 1 2)).cb.losses.length ∧
    (find_learning_rate (W := Unit) ⟨(), 1⟩ (fun _ w => w)
        [[3, 5]] 1 2).2.1.length =
      (find_learning_rate (W := Unit) ⟨(), 1⟩ (fun _ w => w)
        [[3, 5]] 1 2).2.2.length ∧
    (find_learning_rate (W := Unit) ⟨(), 1⟩ (fun _ w => w)
        [[3, 5]] 1 2).2.2.length =
      (([[(3 : ℚ), 5]] : List (List ℚ)).map List.length).sum) :=
  ⟨rfl, elr_lists_same_length (initialFitState ⟨(), 1⟩ 1 2)
    [CallbackEvent.epochBegin, CallbackEvent.batchEnd 0 5]
    ⟨(), 1⟩ (fun _ w => w) [[3, 5]] 1 2 rfl⟩

/-- C10: with the default last_iterations = iterations // 10 + 1 and
half_iteration = (iterations - last_iterations) // 2, for every
iterations >= 1 the first two branches of on_batch_begin can only be
taken (iteration counter below half_iteration or below
2 * half_iteration, the counter being non-negative) when
half_iteration >= 1, and the third branch's _interpolate divisor
iterations - 2 * half_iteration is always >= 1. -/
theorem onecycle_default_no_div_zero (iterations : ℤ) (max_lr : ℚ)
    (start_lrArg : Option ℚ) (last_lrArg : Option ℚ)
    (h : 1 ≤ iterations) :
    (∀ i : ℤ, 0 ≤ i →
      (i < (OneCycleScheduler.init iterations max_lr start_lrArg none
            last_lrArg).half_iteration ∨
        i < 2 * (OneCycleScheduler.init iterations max_lr start_lrArg none
            last_lrArg).half_iteration) →
      1 ≤ (OneCycleScheduler.init iterations max_lr start_lrArg none
            last_lrArg).half_iteration) ∧
    1 ≤ (OneCycleScheduler.init iterations max_lr start_lrArg none
          last_lrArg).iterations -
        2 * (OneCycleScheduler.init iterations max_lr start_lrArg none
          last_lrArg).half_iteration := by
  have hhalf0 : (OneCycleScheduler.init iterations max_lr start_lrArg none
      last_lrArg).half_iteration =
      (iterations - (iterations.fdiv 10 + 1)).fdiv 2 := rfl
  have hhalf : (OneCycleScheduler.init iterations max_lr start_lrArg none
      last_lrArg).half_iteration =
      (iterations - (iterations / 10 + 1)) / 2 := by
    rw [hhalf0, Int.fdiv_eq_ediv iterations (by norm_num),
      Int.fdiv_eq_ediv _ (by norm_num)]
  have hits : (OneCycleScheduler.init iterations max_lr start_lrArg none
      last_lrArg).iterations = iterations := rfl
  rw [hhalf, hits]
  constructor
  · intro i hi hlt
    omega
  · omega

theorem onecycle_default_no_div_zero_witness :
    (1 : ℤ) ≤ 7 ∧
    ((∀ i : ℤ, 0 ≤ i →
      (i < (OneCycleScheduler.init 7 (1/100) none none
            none).half_iteration ∨
        i < 2 * (OneCycleScheduler.init 7 (1/100) none none
            none).half_iteration) →
      1 ≤ (OneCycleScheduler.init 7 (1/100) none none
            none).half_iteration) ∧
    1 ≤ (OneCycleScheduler.init 7 (1/100) none none
          none).iterations -
        2 * (OneCycleScheduler.init 7 (1/100) none none
          none).half_iteration) :=
  ⟨by norm_num,
    onecycle_default_no_div_zero 7 (1/100) none none (by norm_num)⟩

end LRSched
